import Mathlib

/-!
Verification development for the DCO analysis-and-practice pipeline.

A shallow embedding of the core of `src/dco/core/`:
  * `classification.py` — move classification (`classify_move`,
    `_calculate_cp_loss`, `_classify_mate_situation`, `_is_critical_position`,
    `_median`),
  * `accuracy.py` — accuracy from centipawn loss (`compute_accuracy`,
    `_get_cp_loss`, `_cp_loss_to_score`),
  * `analysis.py` — performance-Elo estimation (`_estimate_performance_elo`,
    `_compute_acpl`),
  * `practice.py` — practice-item generation, selection and spaced-repetition
    updates (`generate_practice_items`, `select_practice_items`,
    `update_practice_progress`, `_build_target_line`, `_map_move_to_category`).

Modelling conventions:
  * Python ints are `ℤ`/`ℕ`; Python floats are modelled exactly by `ℚ`
    (spaced repetition, Elo) or by `ℝ` (accuracy, which uses `log₁₀`).
  * `None`-able values are `Option`.
  * The external Stockfish process is modelled as an oracle: a function from
    the call index (and the engine parameters of the call) to the reply, or
    to an error for a raised exception.  The engine-dependent Critical and
    Brilliant gates of `classify_move` are abstracted as boolean oracle
    results, since their inner engine probes do not affect the claims about
    `classify_move`'s own control flow.
-/

/-- Chess side, mirroring `chess.WHITE` / `chess.BLACK`. -/
inductive Color where
  | white
  | black
deriving DecidableEq, Repr

/-- The nine move categories of `classification.MoveClassification`. -/
inductive MoveClassification where
  | book
  | best
  | excellent
  | good
  | inaccuracy
  | mistake
  | blunder
  | critical
  | brilliant
deriving DecidableEq, Repr

/-- `engine.EngineEvaluation`, restricted to the fields that
`classify_move`, `_calculate_cp_loss` and `_classify_mate_situation` read
(`pv_lines` and `depth` are only consumed by the engine-probing gates,
which are abstracted; see `GateOracle`).  `score_cp` and `score_mate` are
from White's perspective, as produced by `ChessEngine.evaluate`. -/
structure EngineEvaluation where
  score_cp : Option ℤ
  score_mate : Option ℤ
  best_move : Option ℕ
deriving DecidableEq, Repr

/-- Outcomes of the two engine-probing sub-checks of `classify_move`:
`_is_critical_position` and `_is_brilliant_move`.  Both make further engine
calls; for `classify_move` itself only their boolean results matter, so they
enter the embedding as oracle values.  `classify_move`'s optional `engine`
argument becomes `Option GateOracle`: `none` models `engine=None`. -/
structure GateOracle where
  isCritical : Bool
  isBrilliant : Bool

/-- `classification._calculate_cp_loss`: centipawn loss of the user's move
against the best move, from the mover's perspective, clamped to `≥ 0`;
`none` when either centipawn score is undefined. -/
def _calculate_cp_loss (eval_best eval_user : EngineEvaluation)
    (side_to_move : Color) : Option ℤ :=
  match eval_best.score_cp, eval_user.score_cp with
  | some b, some u =>
      -- Both evaluations are from White's perspective; convert to the
      -- moving player's perspective, then clamp the difference to ≥ 0.
      let score_best : ℤ := match side_to_move with
        | .white => b
        | .black => -b
      let score_user : ℤ := match side_to_move with
        | .white => u
        | .black => -u
      some (max 0 (score_best - score_user))
  | _, _ => none

/-- `classification._classify_mate_situation`: classification for
mate-related situations, `none` when no mate is involved (per the code's
control flow).  Mirrors the source exactly, including the outer
`eval_best.score_mate > 0` guard. -/
def _classify_mate_situation (eval_best eval_user : EngineEvaluation)
    (side_to_move : Color) : Option MoveClassification :=
  -- The final `if eval_user.score_mate is not None` block of the source.
  let opponentCheck : Option MoveClassification :=
    match eval_user.score_mate with
    | some mu =>
        let opponent_has_mate : Bool := match side_to_move with
          | .white => mu < 0
          | .black => mu > 0
        if opponent_has_mate then some .blunder else none
    | none => none
  match eval_best.score_mate with
  | some mb =>
      if mb > 0 then
        let mate_for_us : Bool := match side_to_move with
          | .white => mb > 0
          | .black => mb < 0
        if mate_for_us then
          match eval_user.score_mate with
          | some mu =>
              let user_mate : Bool := match side_to_move with
                | .white => mu > 0
                | .black => mu < 0
              if user_mate then some .best else some .critical
          | none => some .critical
        else opponentCheck
      else opponentCheck
  | none => opponentCheck

-- Classification thresholds (in centipawns), from `classification.py`.
def EXCELLENT_THRESHOLD : ℤ := 15
def GOOD_THRESHOLD : ℤ := 50
def INACCURACY_THRESHOLD : ℤ := 100
def MISTAKE_THRESHOLD : ℤ := 200

/-- `classification.classify_move`.  Moves are identified by their UCI
encoding as a natural number; `turn` is `board_before.turn`.  The Python
truthiness test `eval_before.best_move and move == eval_before.best_move`
becomes a match on the option. -/
def classify_move (move : ℕ) (eval_before eval_best eval_user : EngineEvaluation)
    (is_book : Bool) (turn : Color) (engine : Option GateOracle) :
    MoveClassification :=
  if is_book then .book
  else
    let is_best_move : Bool := match eval_before.best_move with
      | some b => b = move
      | none => false
    if is_best_move then
      if (match engine with | some g => g.isCritical | none => false) then
        .critical
      else if (match engine with | some g => g.isBrilliant | none => false) then
        .brilliant
      else .best
    else
      let cp_loss := _calculate_cp_loss eval_best eval_user turn
      match _classify_mate_situation eval_best eval_user turn with
      | some c => c
      | none =>
        match cp_loss with
        | none => .good  -- Default if we can't calculate
        | some l =>
          if l ≤ EXCELLENT_THRESHOLD then
            if (match engine with | some g => g.isBrilliant | none => false) then
              .brilliant
            else .excellent
          else if l ≤ GOOD_THRESHOLD then .good
          else if l ≤ INACCURACY_THRESHOLD then .inaccuracy
          else if l ≤ MISTAKE_THRESHOLD then .mistake
          else .blunder

/-- Mover-perspective score, following the spec's words: centipawn scores
are from the reference side (White); the sign flips when the mover is the
non-reference side. -/
def povScore (turn : Color) (s : ℤ) : ℤ :=
  match turn with
  | .white => s
  | .black => -s

/-- The spec's step-2 delta: `Δ = score_best − score_after` in the mover's
perspective, clamped to `≥ 0`.  Written from the spec's words, for
comparison with `_calculate_cp_loss`. -/
def specDelta (turn : Color) (score_best score_after : ℤ) : ℤ :=
  max 0 (povScore turn score_best - povScore turn score_after)

/-- The spec's step-5 threshold table, written from the spec's words:
`Δ ≤ 15 → Excellent; ≤ 50 → Good; ≤ 100 → Inaccuracy; ≤ 200 → Mistake;
else Blunder`. -/
def specCpCategory (d : ℤ) : MoveClassification :=
  if d ≤ 15 then .excellent
  else if d ≤ 50 then .good
  else if d ≤ 100 then .inaccuracy
  else if d ≤ 200 then .mistake
  else .blunder

/-- `analysis.MoveAnalysis`, restricted to the fields consumed by
`compute_accuracy`, `_compute_acpl`, `_estimate_performance_elo` and
`generate_practice_items` (the SAN/UCI strings, `fen_after`, `best_uci`
and `comment` are carried but never read by those functions and are
omitted).  Evaluation scalars are from White's perspective. -/
structure MoveAnalysis where
  ply_index : ℕ
  eval_before_cp : Option ℤ
  eval_best_cp : Option ℤ
  eval_after_cp : Option ℤ
  classification : MoveClassification
  is_book : Bool
  is_brilliant : Bool
  fen_before : String
deriving DecidableEq, Repr

/-- `accuracy._get_cp_loss`: per-move centipawn loss used by
`compute_accuracy`.  Note that it is computed from `eval_before_cp` and
`eval_after_cp` (the evaluations before and after the move), with `None`
scalars collapsing to a loss of `0`. -/
def _get_cp_loss (move : MoveAnalysis) : ℤ :=
  match move.eval_before_cp, move.eval_after_cp with
  | some eval_before, some eval_after =>
      -- even ply = White mover, odd ply = Black mover
      let is_white : Bool := move.ply_index % 2 = 0
      let loss : ℤ := if is_white then eval_before - eval_after
        else eval_after - eval_before
      max 0 loss
  | _, _ => 0  -- `None` handling: the source returns 0

/-- `accuracy._cp_loss_to_score`: map a centipawn loss to a 0–100 score by
logarithmic decay, `score = 100 − 28.85·log₁₀(1 + cp_loss)`, clamped to
`[0, 100]`.  The float arithmetic of the source is modelled on `ℝ`. -/
noncomputable def _cp_loss_to_score (cp_loss : ℤ) : ℝ :=
  if cp_loss ≤ 0 then 100
  else max 0 (min 100 (100 - 28.85 * Real.logb 10 (1 + (cp_loss : ℝ))))

/-- Python's `round(x, 2)` modelled on `ℝ`: round `100·x` to the nearest
integer and divide back.  (CPython rounds half to even on binary floats;
`round` here rounds half up — the two agree away from exact half-cent
values, which none of the statements below depend on.) -/
noncomputable def round2 (x : ℝ) : ℝ := ((round (100 * x) : ℤ) : ℝ) / 100

/-- `accuracy.compute_accuracy`: mean of the per-move scores over non-book
moves, rounded to two decimals; `0` for an empty list and `100` when every
move is a book move. -/
noncomputable def compute_accuracy (moves : List MoveAnalysis) : ℝ :=
  if moves = [] then 0
  else
    let non_book_moves := moves.filter (fun m => !m.is_book)
    if non_book_moves = [] then 100  -- All moves were book moves
    else
      let total_score : ℝ :=
        non_book_moves.foldl (fun acc m => acc + _cp_loss_to_score (_get_cp_loss m)) 0
      round2 (total_score / non_book_moves.length)

/-- `analysis._compute_acpl`: average centipawn loss over the non-book moves
with defined `eval_best_cp`/`eval_after_cp`, from the mover's perspective
(even ply = White); `none` when no move qualifies. -/
def _compute_acpl (moves : List MoveAnalysis) : Option ℚ :=
  let cp_losses : List ℚ := moves.filterMap (fun move =>
    if move.is_book then none
    else
      match move.eval_best_cp, move.eval_after_cp with
      | some best, some after =>
          let is_white_move : Bool := move.ply_index % 2 = 0
          some (if is_white_move then (max 0 (best - after) : ℤ)
            else (max 0 (after - best) : ℤ))
      | _, _ => none)
  if cp_losses = [] then none
  else some (cp_losses.sum / cp_losses.length)

/-- The gated body of `analysis.GameAnalyzer._estimate_performance_elo`:
everything after the minimum-size check.  ACPL → piecewise base curve,
minus per-40-move blunder/mistake penalties, clamped to `[500, 3000]`,
then capped at `opponent + 400` when the opponent's rating is known.
Python's final `int(...)` truncation is `Int.floor` (the value is an
integer or a non-negative rational on every path, where the two agree). -/
def perfEloBody (moves : List MoveAnalysis) (opponent_elo : Option ℤ) : ℤ :=
  match _compute_acpl moves with
  | none => 1500  -- Cannot compute without cp loss data
  | some acpl =>
    let blunders : ℕ := (moves.filter (fun m => m.classification = .blunder)).length
    let mistakes : ℕ := (moves.filter (fun m => m.classification = .mistake)).length
    let num_moves : ℕ := moves.length
    let blunders_per_40 : ℚ := if num_moves > 0 then (blunders / num_moves : ℚ) * 40 else 0
    let mistakes_per_40 : ℚ := if num_moves > 0 then (mistakes / num_moves : ℚ) * 40 else 0
    let base_elo : ℚ :=
      if acpl ≤ 10 then 2600 - acpl * 30
      else if acpl ≤ 30 then 2300 - (acpl - 10) * 15
      else if acpl ≤ 50 then 2000 - (acpl - 30) * 15
      else if acpl ≤ 100 then 1700 - (acpl - 50) * 10
      else 1200 - (acpl - 100) * 4
    let penalty : ℚ := blunders_per_40 * 150 + mistakes_per_40 * 50
    let estimated_elo : ℚ := base_elo - penalty
    let estimated_elo : ℚ := max 500 (min 3000 estimated_elo)
    let estimated_elo : ℚ := match opponent_elo with
      | some opp => min estimated_elo ((opp : ℚ) + 400)
      | none => estimated_elo
    ⌊estimated_elo⌋

/-- `analysis.GameAnalyzer._estimate_performance_elo`.  The list passed by
`analyze_game` holds the moves of one side only; the `MIN_PLIES = 20` gate
is applied to that list's length. -/
def _estimate_performance_elo (moves : List MoveAnalysis)
    (opponent_elo : Option ℤ) : ℤ :=
  if moves.length < 20 then 1500  -- Default uncertain rating
  else perfEloBody moves opponent_elo

/-- `data.models.PracticeResult`. -/
inductive PracticeResult where
  | pass_first_try
  | pass
  | fail
deriving DecidableEq, Repr

/-- `data.models.PracticeCategory`. -/
inductive PracticeCategory where
  | blunder
  | mistake
  | inaccuracy
  | critical
deriving DecidableEq, Repr

/-- `data.models.PracticeProgress` (one row; the fields touched by
`update_practice_progress` and `select_practice_items`).  Timestamps are
abstract rationals; `datetime.utcnow() + timedelta(days=d)` becomes
`now + d` with one time unit per day. -/
structure PracticeProgress where
  due_date : ℚ
  interval_days : ℚ
  ease_factor : ℚ
  repetitions : ℕ
  lapses : ℕ
  last_result : Option PracticeResult
  attempts_total : ℕ
  attempts_first_try_correct : ℕ
  consecutive_first_try : ℕ
deriving DecidableEq, Repr

/-- `practice.update_practice_progress`: one SM-2-style attempt update.
Mutation of the row becomes a returned record; `now` stands for
`datetime.utcnow()` at the call. -/
def update_practice_progress (progress : PracticeProgress)
    (result : PracticeResult) (first_try : Bool) (now : ℚ) : PracticeProgress :=
  let p := { progress with attempts_total := progress.attempts_total + 1 }
  let p := if first_try ∧ result ≠ .fail then
      { p with attempts_first_try_correct := p.attempts_first_try_correct + 1 }
    else p
  let quality : ℕ := match result with
    | .pass_first_try => 5
    | .pass => 3
    | .fail => 1
  let p :=
    if quality < 3 then
      { p with
        repetitions := 0
        interval_days := 1
        ease_factor := max (13/10) (p.ease_factor - 2/10)
        lapses := p.lapses + 1
        consecutive_first_try := 0 }
    else
      let reps := p.repetitions + 1
      let interval : ℚ :=
        if reps = 1 then 1
        else if reps = 2 then 6
        else p.interval_days * p.ease_factor
      { p with
        repetitions := reps
        interval_days := interval
        ease_factor := max (13/10) (p.ease_factor + 1/10)
        consecutive_first_try :=
          if result = .pass_first_try then p.consecutive_first_try + 1 else 0 }
  { p with last_result := some result, due_date := now + p.interval_days }

/-- `data.models.PracticeItem` (the columns read or written by
`practice.py`; `motif_tags` and `created_at` omitted — always `None` /
never read). -/
structure PracticeItem where
  id : ℕ
  source_game_id : ℕ
  source_ply_index : ℕ
  fen_start : String
  side_to_move : String
  target_line_uci : List String
  target_line_san : List String
  category : PracticeCategory
deriving DecidableEq, Repr

/-- One row of the SQL join `PracticeItem ⋈ PracticeProgress` over which
`select_practice_items` filters. -/
structure PracticeEntry where
  item : PracticeItem
  progress : PracticeProgress
deriving DecidableEq, Repr

/-- `practice.select_practice_items`.  The joined table is the explicit
list `db`; `random.shuffle` is an arbitrary `shuffle` argument (the
claims' statements constrain it to produce no new elements); `now` is
`datetime.utcnow()`. -/
def select_practice_items (db : List PracticeEntry)
    (categories : List PracticeCategory) (limit : ℕ) (due_only : Bool)
    (now : ℚ) (shuffle : List PracticeEntry → List PracticeEntry) :
    List PracticeEntry :=
  -- category filter + join + mastered-exclusion filter (+ due filter)
  let q := db.filter (fun e =>
    decide (e.item.category ∈ categories) &&
    decide (e.progress.consecutive_first_try < 3) &&
    (!due_only || decide (e.progress.due_date ≤ now)))
  let items :=
    if q.isEmpty then
      -- Fallback: any items if no due items
      db.filter (fun e =>
        decide (e.item.category ∈ categories) &&
        decide (e.progress.consecutive_first_try < 3))
    else q
  (shuffle items).take limit

/-- `practice._map_move_to_category`. -/
def _map_move_to_category (classification : MoveClassification) :
    Option PracticeCategory :=
  match classification with
  | .blunder => some .blunder
  | .mistake => some .mistake
  | .inaccuracy => some .inaccuracy
  | .critical => some .critical
  | _ => none

/-- The SAN/push step of `_build_target_line`'s loop:
`temp_board.san(move)` followed by `temp_board.push(move)`, packaged as an
oracle `sanPush fen uci = some (san, fen')`, or `none` when the library
raises (illegal move), which breaks the loop. -/
def buildLineLoop (sanPush : String → String → Option (String × String)) :
    List String → String → List String × List String
  | [], _ => ([], [])
  | mv :: rest, fen =>
    match sanPush fen mv with
    | none => ([], [])  -- break: keep what was accumulated so far
    | some (san, fen') =>
      let (ucis, sans) := buildLineLoop sanPush rest fen'
      (mv :: ucis, san :: sans)

/-- `practice._build_target_line`: first PV of a fresh engine evaluation of
the start position, truncated to `max_plies`, converted to parallel
UCI/SAN lists.  `pvOracle fen` models `engine.evaluate(board).pv_lines`
with moves as UCI strings. -/
def _build_target_line (pvOracle : String → List (List String))
    (sanPush : String → String → Option (String × String))
    (fen : String) (max_plies : ℕ) : List String × List String :=
  match pvOracle fen with
  | [] => ([], [])
  | pv :: _ =>
    if pv = [] then ([], [])
    else buildLineLoop sanPush (pv.take max_plies) fen

/-- `data.models.PracticeProgress` row as inserted by
`generate_practice_items` (fresh spaced-repetition state); the owning
`practice_item_id` is the first component of the pair stored in
`PracticeDB.progresses`. -/
def freshProgress (now : ℚ) : PracticeProgress :=
  { due_date := now
    interval_days := 1
    ease_factor := 5/2
    repetitions := 0
    lapses := 0
    last_result := none
    attempts_total := 0
    attempts_first_try_correct := 0
    consecutive_first_try := 0 }

/-- The practice tables plus the `PracticeItem` autoincrement counter
(`session.flush()` materialises ids in insertion order). -/
structure PracticeDB where
  items : List PracticeItem
  progresses : List (ℕ × PracticeProgress)  -- (practice_item_id, row)
  next_item_id : ℕ

/-- The per-move body of `generate_practice_items`' loop: `none` when the
move is skipped, otherwise the id-independent data of the item to insert.
`fenTurn fen` models `chess.Board(fen).turn`. -/
def practiceCandidate (allMoves : List MoveAnalysis)
    (categories : List PracticeCategory) (offset_plies target_line_plies : ℕ)
    (fenTurn : String → Color) (pvOracle : String → List (List String))
    (sanPush : String → String → Option (String × String))
    (move : MoveAnalysis) :
    Option (ℕ × String × String × List String × List String × PracticeCategory) :=
  match _map_move_to_category move.classification with
  | none => none
  | some category =>
    if category ∉ categories then none
    -- Skip book moves and brilliant moves (not for practice)
    else if move.is_book || move.is_brilliant then none
    else
      -- start ply = max(0, ply_index - offset_plies): ℕ subtraction clamps at 0
      let start_ply := move.ply_index - offset_plies
      let start_move := allMoves.getD start_ply
        ⟨0, none, none, none, .book, true, true, ""⟩
      let fen_start := start_move.fen_before
      let side_to_move := if fenTurn fen_start = .white then "white" else "black"
      let (target_uci, target_san) :=
        _build_target_line pvOracle sanPush fen_start target_line_plies
      if target_uci = [] then none
      else some (move.ply_index, fen_start, side_to_move, target_uci,
        target_san, category)

/-- The generation loop of `generate_practice_items`: walk the analysed
moves, appending an item row and a fresh progress row for every candidate,
threading the id counter and the created count. -/
def generateLoop (gameId : ℕ) (allMoves : List MoveAnalysis)
    (categories : List PracticeCategory) (offset_plies target_line_plies : ℕ)
    (fenTurn : String → Color) (pvOracle : String → List (List String))
    (sanPush : String → String → Option (String × String)) (now : ℚ) :
    List MoveAnalysis → List PracticeItem → List (ℕ × PracticeProgress) →
    ℕ → ℕ → List PracticeItem × List (ℕ × PracticeProgress) × ℕ × ℕ
  | [], items, progs, nid, created => (items, progs, nid, created)
  | mv :: rest, items, progs, nid, created =>
    match practiceCandidate allMoves categories offset_plies target_line_plies
        fenTurn pvOracle sanPush mv with
    | none =>
      generateLoop gameId allMoves categories offset_plies target_line_plies
        fenTurn pvOracle sanPush now rest items progs nid created
    | some (ply, fen, side, ucis, sans, cat) =>
      let item : PracticeItem :=
        { id := nid
          source_game_id := gameId
          source_ply_index := ply
          fen_start := fen
          side_to_move := side
          target_line_uci := ucis
          target_line_san := sans
          category := cat }
      generateLoop gameId allMoves categories offset_plies target_line_plies
        fenTurn pvOracle sanPush now rest (items ++ [item])
        (progs ++ [(nid, freshProgress now)]) (nid + 1) (created + 1)

/-- `practice.generate_practice_items`: delete this game's old progress
rows and items, then insert one item + fresh progress per qualifying move.
Returns the updated store and the created count. -/
def generate_practice_items (db : PracticeDB) (gameId : ℕ)
    (analysisMoves : List MoveAnalysis) (categories : List PracticeCategory)
    (offset_plies target_line_plies : ℕ) (fenTurn : String → Color)
    (pvOracle : String → List (List String))
    (sanPush : String → String → Option (String × String)) (now : ℚ) :
    PracticeDB × ℕ :=
  -- Delete progress records of this game's items first, then the items
  let doomed := (db.items.filter (fun it => it.source_game_id = gameId)).map (·.id)
  let keptProgs := db.progresses.filter (fun p => !(p.1 ∈ doomed))
  let keptItems := db.items.filter (fun it => !(it.source_game_id = gameId))
  let result :=
    generateLoop gameId analysisMoves categories offset_plies target_line_plies
      fenTurn pvOracle sanPush now analysisMoves keptItems keptProgs
      db.next_item_id 0
  (⟨result.1, result.2.1, result.2.2.1⟩, result.2.2.2)

/-- Insert into a sorted list, for `insertionSort`. -/
def sortedInsert (x : ℚ) : List ℚ → List ℚ
  | [] => [x]
  | y :: ys => if x ≤ y then x :: y :: ys else y :: sortedInsert x ys

/-- Python's `sorted(...)` on rationals, as a structurally recursive
insertion sort (same output: the input in non-decreasing order). -/
def insertionSort : List ℚ → List ℚ
  | [] => []
  | x :: xs => sortedInsert x (insertionSort xs)

/-- `classification._median`: median of a list of numbers (`0.0` for an
empty list; mean of the two middle elements for even length). -/
def _median (values : List ℚ) : ℚ :=
  if values = [] then 0
  else
    let sorted_vals := insertionSort values
    let n := sorted_vals.length
    if n % 2 = 0 then
      (sorted_vals.getD (n / 2 - 1) 0 + sorted_vals.getD (n / 2) 0) / 2
    else sorted_vals.getD (n / 2) 0

-- Critical position thresholds, from `classification.py`.
def UNIQUE_GAP : ℚ := 120
def BREADTH_GAP : ℚ := 150
def WORST_GAP : ℚ := 250
def DECIDED_SUPPRESS : ℚ := 600

/-- `engine.EngineConfig`, restricted to the field `_is_critical_position`
manipulates. -/
structure EngineConfig where
  multipv : ℕ
deriving DecidableEq, Repr

/-- `engine.EngineEvaluation` as consumed by `_is_critical_position`:
principal variations (moves as UCI numbers), mate flag, reached depth. -/
structure MultiPvEvaluation where
  score_cp : Option ℤ
  score_mate : Option ℤ
  pv_lines : List (List ℕ)
  depth : ℤ
deriving Repr

/-- `engine.ChessEngine` as a state: the mutable config, plus the external
Stockfish subprocess as an oracle from (call index, requested depth,
current multi-PV count) to either a reply or a raised exception
(`Except.error`). -/
structure ChessEngine where
  config : EngineConfig
  oracle : ℕ → ℤ → ℕ → Except Unit MultiPvEvaluation
  calls : ℕ

/-- Overwriting `engine.config.multipv`. -/
def ChessEngine.setMultipv (e : ChessEngine) (k : ℕ) : ChessEngine :=
  { e with config := { multipv := k } }

/-- `engine.evaluate(board, depth=...)`: consults the oracle at the current
call index with the current `config.multipv`, advancing the call counter.
The reply or the raised exception comes from the oracle; the config is
never touched by `evaluate`. -/
def ChessEngine.evaluate (e : ChessEngine) (depth : ℤ) :
    Except Unit MultiPvEvaluation × ChessEngine :=
  (e.oracle e.calls depth e.config.multipv, { e with calls := e.calls + 1 })

/-- The candidate-evaluation loop of `_is_critical_position`: for each of
the (up to five) PV lines, skip empty lines, evaluate the position after
the line's first move at `max(15, eval_before.depth − 2)`, and collect the
defined centipawn scores converted to the side-to-move perspective.  An
engine exception aborts the whole `try` block (`Except.error`). -/
def criticalPvLoop (turn : Color) (depth : ℤ) :
    List (List ℕ) → ChessEngine → Except Unit (List ℚ) × ChessEngine
  | [], e => (.ok [], e)
  | pv_line :: rest, e =>
    if pv_line = [] then criticalPvLoop turn depth rest e
    else
      match e.evaluate (max 15 (depth - 2)) with
      | (.error u, e') => (.error u, e')
      | (.ok pv_eval, e') =>
        match pv_eval.score_cp with
        | none => criticalPvLoop turn depth rest e'
        | some s =>
          let score : ℚ := match turn with
            | .white => (s : ℚ)
            | .black => (-s : ℚ)
          match criticalPvLoop turn depth rest e' with
          | (.ok tail, e'') => (.ok (score :: tail), e'')
          | (.error u, e'') => (.error u, e'')

/-- `classification._is_critical_position`, with the board abstracted to
the side to move (`board.turn`) and `eval_before` to its reached depth.
The temporary multi-PV raise to 5, the restore after the multi-PV probe,
and the restore-and-return-False of the bare `except:` handler are
modelled exactly; the returned engine carries the final `config`. -/
def _is_critical_position (eval_before_depth : ℤ) (turn : Color)
    (engine : ChessEngine) : Bool × ChessEngine :=
  -- Save current multipv setting
  let original_multipv := engine.config.multipv
  -- try: set MultiPV to 5 for critical detection, re-evaluate the position
  let e1 := engine.setMultipv 5
  match e1.evaluate eval_before_depth with
  | (.error _, e') => (false, e'.setMultipv original_multipv)
  | (.ok multi_eval, e2) =>
    -- Restore original multipv
    let e3 := e2.setMultipv original_multipv
    if multi_eval.pv_lines.length < 2 then (false, e3)
    else
      match criticalPvLoop turn eval_before_depth (multi_eval.pv_lines.take 5) e3 with
      | (.error _, e') => (false, e'.setMultipv original_multipv)
      | (.ok evaluations, e4) =>
        if evaluations.length < 2 then (false, e4)
        else
          let E1 := evaluations.getD 0 0
          let E2 := evaluations.getD 1 0
          -- Check 4: suppress if already decided (unless mate-related)
          if DECIDED_SUPPRESS ≤ |E1| ∧ multi_eval.score_mate = none then
            (false, e4)
          -- Check 1: uniqueness gap
          else if E1 - E2 < UNIQUE_GAP then (false, e4)
          -- Check 2: breadth collapse (needs at least 3 moves)
          else if 3 ≤ evaluations.length ∧
              E1 - _median ((evaluations.drop 1).take 4) < BREADTH_GAP then
            (false, e4)
          -- Check 3: worst collapse (needs at least 5 moves)
          else if 5 ≤ evaluations.length ∧
              E1 - evaluations.getD 4 0 < WORST_GAP then
            (false, e4)
          else (true, e4)

/-- C1: for every non-book move that is not the engine's best move, with
plain centipawn scores on both probes (no mate promised by either) and the
Brilliant gate not triggering, `classify_move` returns exactly the category
of the clamped mover-perspective delta `Δ = max(0, score_best − score_after)`
(sign flipped for Black): `Δ ≤ 15 → Excellent, ≤ 50 → Good,
≤ 100 → Inaccuracy, ≤ 200 → Mistake, > 200 → Blunder`. -/
theorem classify_nonmate_matches_spec_thresholds (move : ℕ)
    (eval_before eval_best eval_user : EngineEvaluation) (turn : Color)
    (engine : Option GateOracle) (b a : ℤ)
    (hbest : eval_before.best_move ≠ some move)
    (hb : eval_best.score_cp = some b) (ha : eval_user.score_cp = some a)
    (hmb : eval_best.score_mate = none) (hmu : eval_user.score_mate = none)
    (hbr : (match engine with | some g => g.isBrilliant | none => false) = false) :
    classify_move move eval_before eval_best eval_user false turn engine =
      specCpCategory (specDelta turn b a) := by
  have hnb : (match eval_before.best_move with
      | some bm => decide (bm = move)
      | none => false) = false := by
    cases h : eval_before.best_move with
    | none => rfl
    | some bm =>
      simp only [decide_eq_false_iff_not]
      intro he
      exact hbest (by rw [h, he])
  cases turn <;>
    simp [classify_move, hnb, _calculate_cp_loss, hb, ha,
      _classify_mate_situation, hmb, hmu, hbr, specDelta, povScore,
      specCpCategory, EXCELLENT_THRESHOLD, GOOD_THRESHOLD,
      INACCURACY_THRESHOLD, MISTAKE_THRESHOLD]

/-- Witness for C1: a White move 60 cp worse than the best move is an
`Inaccuracy`. -/
theorem classify_nonmate_matches_spec_thresholds_witness :
    classify_move 1 ⟨none, none, some 0⟩ ⟨some 100, none, none⟩
      ⟨some 40, none, none⟩ false .white none =
      specCpCategory (specDelta .white 100 40) :=
  classify_nonmate_matches_spec_thresholds 1 _ _ _ .white none 100 40
    (by decide) rfl rfl rfl rfl rfl

/-- C2 (failing input): a Black mover with a forced mate promised by the
best probe (`score_mate = -3`, i.e. Black mates) who plays a move after
which no mate and no centipawn score is reported is classified `Good`, not
`Critical`: the missed-mate branch of `_classify_mate_situation` is dead
for Black because of the outer `eval_best.score_mate > 0` guard, although
its own docstring promises `Missing mate-in-X: CRITICAL`. -/
theorem black_missed_mate_classified_good :
    classify_move 1 ⟨none, none, some 0⟩ ⟨none, some (-3), none⟩
      ⟨none, none, none⟩ false .black none = .good := by
  decide

/-- C10: for every non-book move that is not the engine's best move, when
neither probe promises mate and at least one of the best/after centipawn
scalars is undefined, `classify_move` falls through to the default `Good`. -/
theorem classify_missing_cp_defaults_good (move : ℕ)
    (eval_before eval_best eval_user : EngineEvaluation) (turn : Color)
    (engine : Option GateOracle)
    (hbest : eval_before.best_move ≠ some move)
    (hmb : eval_best.score_mate = none) (hmu : eval_user.score_mate = none)
    (hcp : eval_best.score_cp = none ∨ eval_user.score_cp = none) :
    classify_move move eval_before eval_best eval_user false turn engine =
      .good := by
  have hnb : (match eval_before.best_move with
      | some bm => decide (bm = move)
      | none => false) = false := by
    cases h : eval_before.best_move with
    | none => rfl
    | some bm =>
      simp only [decide_eq_false_iff_not]
      intro he
      exact hbest (by rw [h, he])
  have hloss : _calculate_cp_loss eval_best eval_user turn = none := by
    rcases hcp with h | h
    · cases hu : eval_user.score_cp <;> simp [_calculate_cp_loss, h, hu]
    · cases hb2 : eval_best.score_cp <;> simp [_calculate_cp_loss, h, hb2]
  simp [classify_move, hnb, hloss, _classify_mate_situation, hmb, hmu]

/-- Witness for C10: best probe with no centipawn score (and no mate)
yields `Good`. -/
theorem classify_missing_cp_defaults_good_witness :
    classify_move 1 ⟨none, none, some 0⟩ ⟨none, none, none⟩
      ⟨some 40, none, none⟩ false .white none = .good :=
  classify_missing_cp_defaults_good 1 _ _ _ .white none (by decide) rfl rfl
    (Or.inl rfl)

/-- The starting spaced-repetition state of the S7 scenario:
`repetitions = 0`, `interval = 1` day, `ease = 2.5` (the fresh-progress
defaults of `generate_practice_items`). -/
def sm2Start : PracticeProgress := freshProgress 0

/-- One `PassFirstTry` attempt applied to a progress state (time frozen at
`now = 0`; the claim is about intervals and ease only). -/
def sm2Step (p : PracticeProgress) : PracticeProgress :=
  update_practice_progress p .pass_first_try true 0

/-- C6 (counterexample): after three successive `PassFirstTry` updates from
`(repetitions=0, interval=1, ease=2.5)` the third interval is not 15 days —
the ease factor has already been raised to 2.7 by the first two passes, so
the third interval is `6 × 2.7 = 16.2` days. -/
theorem sm2_first_step_eval : sm2Step sm2Start =
    ⟨1, 1, 13/5, 1, 0, some .pass_first_try, 1, 1, 1⟩ := by
  simp [sm2Step, sm2Start, update_practice_progress, freshProgress, max_def]
  norm_num

theorem sm2_second_step_eval :
    sm2Step ⟨1, 1, 13/5, 1, 0, some .pass_first_try, 1, 1, 1⟩ =
      ⟨6, 6, 27/10, 2, 0, some .pass_first_try, 2, 2, 2⟩ := by
  simp [sm2Step, update_practice_progress, max_def]
  norm_num

theorem sm2_third_step_eval :
    sm2Step ⟨6, 6, 27/10, 2, 0, some .pass_first_try, 2, 2, 2⟩ =
      ⟨81/5, 81/5, 14/5, 3, 0, some .pass_first_try, 3, 3, 3⟩ := by
  simp [sm2Step, update_practice_progress, max_def]
  norm_num

theorem sm2_third_interval_not_fifteen :
    (sm2Step (sm2Step (sm2Step sm2Start))).interval_days ≠ 15 := by
  rw [sm2_first_step_eval, sm2_second_step_eval, sm2_third_step_eval]
  norm_num

/-- C6 (amended): three successive `PassFirstTry` updates from
`(repetitions=0, interval=1, ease=2.5)` yield the interval sequence
`(1, 6, 16.2)` days and a final ease factor of exactly `2.8`. -/
theorem sm2_progression :
    (sm2Step sm2Start).interval_days = 1 ∧
    (sm2Step (sm2Step sm2Start)).interval_days = 6 ∧
    (sm2Step (sm2Step (sm2Step sm2Start))).interval_days = 81 / 5 ∧
    (sm2Step (sm2Step (sm2Step sm2Start))).ease_factor = 14 / 5 := by
  rw [sm2_first_step_eval, sm2_second_step_eval, sm2_third_step_eval]
  exact ⟨rfl, rfl, rfl, rfl⟩

/-- A mastered practice entry: `consecutive_first_try = 3`, already due. -/
def masteredEntry : PracticeEntry :=
  { item := ⟨1, 1, 0, "startfen", "white", ["e2e4"], ["e4"], .blunder⟩
    progress := { freshProgress 0 with consecutive_first_try := 3 } }

/-- C7 (counterexample): with a store holding only a mastered item of the
requested category (due, matching, but `consecutive_first_try = 3`),
due-only selection returns nothing — the fallback taken when no due items
qualify filters on `consecutive_first_try < 3` again, so the mastered item
is not returned even though no other item qualifies. -/
theorem select_mastered_only_returns_nothing :
    select_practice_items [masteredEntry] [.blunder] 5 true 0 (fun l => l)
      = [] := by
  simp [select_practice_items, masteredEntry, freshProgress]

/-- C7 (amended): for any shuffle that only permutes (introduces no new
elements), every entry returned by `select_practice_items` has
`consecutive_first_try < 3` — mastered items are never returned, whether
or not any other item qualifies; the due-only fallback relaxes only the
due filter, never the mastered filter. -/
theorem select_never_returns_mastered (db : List PracticeEntry)
    (categories : List PracticeCategory) (limit : ℕ) (due_only : Bool)
    (now : ℚ) (shuffle : List PracticeEntry → List PracticeEntry)
    (hsh : ∀ l e, e ∈ shuffle l → e ∈ l) :
    (select_practice_items db categories limit due_only now shuffle).all
      (fun e => decide (e.progress.consecutive_first_try < 3)) = true := by
  rw [List.all_eq_true]
  intro e he
  unfold select_practice_items at he
  have h2 := hsh _ _ (List.mem_of_mem_take he)
  split at h2
  · have := List.of_mem_filter h2
    simp only [Bool.and_eq_true, decide_eq_true_eq] at this
    exact decide_eq_true this.2
  · have := List.of_mem_filter h2
    simp only [Bool.and_eq_true, decide_eq_true_eq] at this
    exact decide_eq_true this.1.2

/-- Witness for C7: with one live and one mastered entry and the identity
shuffle, every selected entry is non-mastered. -/
theorem select_never_returns_mastered_witness :
    (select_practice_items
        [⟨⟨2, 1, 0, "otherfen", "black", ["d2d4"], ["d4"], .mistake⟩,
          freshProgress 0⟩, masteredEntry]
        [.blunder, .mistake] 5 true 0 (fun l => l)).all
      (fun e => decide (e.progress.consecutive_first_try < 3)) = true :=
  select_never_returns_mastered _ _ 5 true 0 (fun l => l)
    (fun _ _ h => h)

/-- Modelled from the spec: the Performance-Elo minimum-size gate of §4.D,
which "requires ≥ 20 plies total in the game": the threshold is counted
over both sides' moves together.  The post-gate body is the code's
(`perfEloBody`); only the gate differs from `_estimate_performance_elo`. -/
def specPerfEloTotal (sideMoves otherMoves : List MoveAnalysis)
    (opponent_elo : Option ℤ) : ℤ :=
  if sideMoves.length + otherMoves.length < 20 then 1500
  else perfEloBody sideMoves opponent_elo

/-- A non-book move with perfect play: best and after evaluations agree at
0 cp, classified `Best`. -/
def perfectMove (ply : ℕ) : MoveAnalysis :=
  ⟨ply, some 0, some 0, some 0, .best, false, false, ""⟩

/-- White's ten moves of a 20-ply game, all perfect. -/
def whiteTen : List MoveAnalysis :=
  [perfectMove 0, perfectMove 2, perfectMove 4, perfectMove 6, perfectMove 8,
   perfectMove 10, perfectMove 12, perfectMove 14, perfectMove 16, perfectMove 18]

/-- Black's ten moves of the same 20-ply game. -/
def blackTen : List MoveAnalysis :=
  [perfectMove 1, perfectMove 3, perfectMove 5, perfectMove 7, perfectMove 9,
   perfectMove 11, perfectMove 13, perfectMove 15, perfectMove 17, perfectMove 19]

/-- ACPL of the ten perfect moves is 0. -/
theorem acpl_whiteTen : _compute_acpl whiteTen = some 0 := by
  simp [_compute_acpl, whiteTen, perfectMove, List.filterMap_cons]

/-- The ungated Elo body rates the perfect side at 2600. -/
theorem perfEloBody_whiteTen : perfEloBody whiteTen none = 2600 := by
  unfold perfEloBody
  rw [acpl_whiteTen]
  simp [whiteTen, perfectMove, List.filter_cons, max_def, min_def]
  norm_num

/-- C4 (counterexample): in a 20-ply game (10 moves per side, so not
"fewer than 20 plies in total") the estimator still returns 1500 for a
side with perfect play, while the spec's total-ply gate would let the ACPL
curve through (2600): the `MIN_PLIES = 20` check of
`_estimate_performance_elo` counts one side's move list, not the game's
total plies. -/
theorem perf_elo_gate_counts_side_not_total :
    _estimate_performance_elo whiteTen none = 1500 ∧
    specPerfEloTotal whiteTen blackTen none = 2600 ∧
    (1500 : ℤ) ≠ 2600 := by
  refine ⟨by norm_num [_estimate_performance_elo, whiteTen], ?_, by norm_num⟩
  have hlen : ¬ whiteTen.length + blackTen.length < 20 := by
    simp [whiteTen, blackTen]
  rw [specPerfEloTotal, if_neg hlen, perfEloBody_whiteTen]

/-- C4 (amended): the estimator returns 1500 whenever the *given side's*
move list has fewer than 20 moves — so in particular a game with fewer
than 20 plies in total yields 1500 for both sides, but the minimum is
counted over one side's moves, not over the whole game. -/
theorem perf_elo_side_gate (moves : List MoveAnalysis)
    (opponent_elo : Option ℤ) (h : moves.length < 20) :
    _estimate_performance_elo moves opponent_elo = 1500 := by
  unfold _estimate_performance_elo
  rw [if_pos h]

/-- Witness for C4: a side with no moves gets 1500. -/
theorem perf_elo_side_gate_witness :
    ([] : List MoveAnalysis).length < 20 ∧
      _estimate_performance_elo [] none = 1500 :=
  ⟨by decide, perf_elo_side_gate [] none (by decide)⟩

/-- Each per-move accuracy score lies in `[0, 100]`. -/
theorem cp_loss_to_score_bounds (cp : ℤ) :
    0 ≤ _cp_loss_to_score cp ∧ _cp_loss_to_score cp ≤ 100 := by
  unfold _cp_loss_to_score
  split
  · norm_num
  · exact ⟨le_max_left 0 _, max_le (by norm_num) (min_le_left _ _)⟩

/-- `round2` maps `[0, 100]` into `[0, 100]`. -/
theorem round2_bounds (x : ℝ) (h0 : 0 ≤ x) (h1 : x ≤ 100) :
    0 ≤ round2 x ∧ round2 x ≤ 100 := by
  unfold round2
  have hlow : (0 : ℤ) ≤ round (100 * x) := by
    rw [round_eq]
    have : (0 : ℤ) = ⌊(1 / 2 : ℝ)⌋ := by norm_num [Int.floor_eq_iff]
    rw [this]
    exact Int.floor_mono (by linarith)
  have hhigh : round (100 * x) ≤ 10000 := by
    rw [round_eq]
    have h2 : ⌊(100 : ℝ) * x + 1 / 2⌋ ≤ ⌊(10000 : ℝ) + 1 / 2⌋ :=
      Int.floor_mono (by linarith)
    have h3 : ⌊(10000 : ℝ) + 1 / 2⌋ = 10000 := by norm_num [Int.floor_eq_iff]
    omega
  constructor
  · apply div_nonneg _ (by norm_num)
    exact_mod_cast hlow
  · rw [div_le_iff₀ (by norm_num : (0:ℝ) < 100)]
    have : ((round (100 * x) : ℤ) : ℝ) ≤ 10000 := by exact_mod_cast hhigh
    linarith

theorem foldl_add_score (l : List MoveAnalysis) (init : ℝ) :
    l.foldl (fun acc m => acc + _cp_loss_to_score (_get_cp_loss m)) init =
      init + (l.map fun m => _cp_loss_to_score (_get_cp_loss m)).sum := by
  induction l generalizing init with
  | nil => simp
  | cons a t ih => simp [ih]; ring

theorem sum_scores_bounds (l : List MoveAnalysis) :
    0 ≤ (l.map fun m => _cp_loss_to_score (_get_cp_loss m)).sum ∧
    (l.map fun m => _cp_loss_to_score (_get_cp_loss m)).sum ≤ 100 * l.length := by
  induction l with
  | nil => simp
  | cons a t ih =>
    obtain ⟨h1, h2⟩ := ih
    obtain ⟨s1, s2⟩ := cp_loss_to_score_bounds (_get_cp_loss a)
    simp only [List.map_cons, List.sum_cons, List.length_cons]
    constructor
    · linarith
    · push_cast
      linarith

/-- `compute_accuracy` always returns a value in `[0, 100]`. -/
theorem compute_accuracy_bounds (moves : List MoveAnalysis) :
    0 ≤ compute_accuracy moves ∧ compute_accuracy moves ≤ 100 := by
  by_cases hmv : moves = []
  · simp [compute_accuracy, hmv]
  · by_cases hnb : moves.filter (fun m => !m.is_book) = []
    · simp [compute_accuracy, hmv, hnb]
    · have hlen : 0 < (moves.filter (fun m => !m.is_book)).length :=
        List.length_pos.mpr hnb
      have hlenR : (0 : ℝ) < (moves.filter (fun m => !m.is_book)).length := by
        exact_mod_cast hlen
      simp only [compute_accuracy, if_neg hmv, if_neg hnb]
      rw [foldl_add_score, zero_add]
      obtain ⟨hs0, hs1⟩ := sum_scores_bounds (moves.filter (fun m => !m.is_book))
      apply round2_bounds
      · exact div_nonneg hs0 hlenR.le
      · rw [div_le_iff₀ hlenR]
        linarith

/-- Range of the clamp-then-cap-then-truncate tail of `perfEloBody`: the
result is at most 3000, at least `min 500 (opponent + 400)` (just 500
without an opponent), and at most `opponent + 400` when capped. -/
theorem floorClampBounds (B : ℚ) (opp : Option ℤ) :
    ⌊(match opp with
      | some o => min (max 500 (min 3000 B)) ((o : ℚ) + 400)
      | none => max 500 (min 3000 B))⌋ ≤ 3000 ∧
    (match opp with
      | none => (500 : ℤ)
      | some o => min 500 (o + 400)) ≤
      ⌊(match opp with
        | some o => min (max 500 (min 3000 B)) ((o : ℚ) + 400)
        | none => max 500 (min 3000 B))⌋ ∧
    ∀ o : ℤ, opp = some o →
      ⌊(match opp with
        | some o' => min (max 500 (min 3000 B)) ((o' : ℚ) + 400)
        | none => max 500 (min 3000 B))⌋ ≤ o + 400 := by
  have hC3000 : max (500 : ℚ) (min 3000 B) ≤ 3000 :=
    max_le (by norm_num) (min_le_left _ _)
  have hC500 : (500 : ℚ) ≤ max 500 (min 3000 B) := le_max_left _ _
  cases opp with
  | none =>
    refine ⟨?_, ?_, ?_⟩
    · rw [Int.floor_le_iff]
      push_cast
      linarith
    · rw [Int.le_floor]
      push_cast
      linarith
    · intro o ho
      exact absurd ho (by simp)
  | some o =>
    refine ⟨?_, ?_, ?_⟩
    · rw [Int.floor_le_iff]
      have := min_le_left (max (500 : ℚ) (min 3000 B)) ((o : ℚ) + 400)
      push_cast
      linarith
    · rw [Int.le_floor]
      have h1 : min ((500 : ℤ) : ℚ) ((o : ℚ) + 400) ≤
          min (max 500 (min 3000 B)) ((o : ℚ) + 400) :=
        min_le_min (by exact_mod_cast hC500) le_rfl
      calc ((min 500 (o + 400) : ℤ) : ℚ)
          = min ((500 : ℤ) : ℚ) ((o : ℚ) + 400) := by push_cast; rfl
        _ ≤ _ := h1
    · intro o' ho
      have hoo : o' = o := by injection ho with h; exact h.symm
      subst hoo
      show ⌊min (max (500 : ℚ) (min 3000 B)) ((o' : ℚ) + 400)⌋ ≤ o' + 400
      have h2 : ⌊min (max (500 : ℚ) (min 3000 B)) ((o' : ℚ) + 400)⌋ ≤
          ⌊((o' : ℚ) + 400)⌋ := Int.floor_mono (min_le_right _ _)
      have h3 : ⌊((o' : ℚ) + 400)⌋ = o' + 400 := by
        rw [show ((o' : ℚ) + 400) = ((o' + 400 : ℤ) : ℚ) by push_cast; ring]
        exact Int.floor_intCast _
      omega

/-- Range of `perfEloBody`. -/
theorem perfEloBody_range (moves : List MoveAnalysis) (opp : Option ℤ) :
    perfEloBody moves opp ≤ 3000 ∧
    (match opp with
      | none => (500 : ℤ)
      | some o => min 500 (o + 400)) ≤ perfEloBody moves opp ∧
    (∀ o : ℤ, opp = some o → _compute_acpl moves ≠ none →
      perfEloBody moves opp ≤ o + 400) := by
  cases hac : _compute_acpl moves with
  | none =>
    simp only [perfEloBody, hac]
    refine ⟨by norm_num, ?_, ?_⟩
    · cases opp with
      | none => norm_num
      | some o =>
        have hm : (match (some o : Option ℤ) with
            | none => (500 : ℤ)
            | some o => min 500 (o + 400)) = min 500 (o + 400) := rfl
        rw [hm]
        have := min_le_left (500 : ℤ) (o + 400)
        omega
    · intro o ho hne
      exact absurd rfl hne
  | some a =>
    simp only [perfEloBody, hac]
    refine ⟨(floorClampBounds _ opp).1, (floorClampBounds _ opp).2.1, ?_⟩
    intro o ho _
    exact (floorClampBounds _ opp).2.2 o ho

/-- C5 (amended): accuracy always lies in `[0, 100]`; the estimated Elo is
always at most 3000 and at least 500 when no opponent rating is known, but
with a known opponent the guaranteed lower bound is only
`min 500 (opponent + 400)` — the cap is applied after the `[500, 3000]`
clamp and can land below 500; and the cap `Elo ≤ opponent + 400` itself is
guaranteed only when the side has at least 20 moves and a computable ACPL
(the early 1500 returns ignore the opponent). -/
theorem accuracy_and_elo_bounds (accMoves eloMoves : List MoveAnalysis)
    (opp : Option ℤ) :
    0 ≤ compute_accuracy accMoves ∧ compute_accuracy accMoves ≤ 100 ∧
    _estimate_performance_elo eloMoves opp ≤ 3000 ∧
    (match opp with
      | none => (500 : ℤ)
      | some o => min 500 (o + 400)) ≤ _estimate_performance_elo eloMoves opp ∧
    (∀ o : ℤ, opp = some o → 20 ≤ eloMoves.length →
      _compute_acpl eloMoves ≠ none →
      _estimate_performance_elo eloMoves opp ≤ o + 400) := by
  obtain ⟨ha0, ha1⟩ := compute_accuracy_bounds accMoves
  obtain ⟨hb1, hb2, hb3⟩ := perfEloBody_range eloMoves opp
  by_cases h20 : eloMoves.length < 20
  · simp only [_estimate_performance_elo, if_pos h20]
    refine ⟨ha0, ha1, by norm_num, ?_, ?_⟩
    · cases opp with
      | none => norm_num
      | some o =>
        have hm : (match (some o : Option ℤ) with
            | none => (500 : ℤ)
            | some o => min 500 (o + 400)) = min 500 (o + 400) := rfl
        rw [hm]
        have := min_le_left (500 : ℤ) (o + 400)
        omega
    · intro o ho h20' hne
      omega
  · simp only [_estimate_performance_elo, if_neg h20]
    exact ⟨ha0, ha1, hb1, hb2, fun o ho _ hne => hb3 o ho hne⟩

/-- White's twenty moves of a 40-ply game, all perfect. -/
def whiteTwenty : List MoveAnalysis :=
  [perfectMove 0, perfectMove 2, perfectMove 4, perfectMove 6, perfectMove 8,
   perfectMove 10, perfectMove 12, perfectMove 14, perfectMove 16, perfectMove 18,
   perfectMove 20, perfectMove 22, perfectMove 24, perfectMove 26, perfectMove 28,
   perfectMove 30, perfectMove 32, perfectMove 34, perfectMove 36, perfectMove 38]

/-- ACPL of the twenty perfect moves is 0. -/
theorem acpl_whiteTwenty : _compute_acpl whiteTwenty = some 0 := by
  simp [_compute_acpl, whiteTwenty, perfectMove, List.filterMap_cons]

/-- Against a 50-rated opponent the capped Elo for perfect play is 450. -/
theorem perfEloBody_whiteTwenty_cap : perfEloBody whiteTwenty (some 50) = 450 := by
  unfold perfEloBody
  rw [acpl_whiteTwenty]
  simp [whiteTwenty, perfectMove, List.filter_cons, max_def, min_def]
  norm_num

/-- C5 (counterexample): the claim fails twice on the code.  With only
10 side moves the gate returns 1500 and ignores a known 800 opponent
(1500 > 800 + 400), and with 20 perfect side moves against a 50-rated
opponent the cap yields 450, below the claimed lower bound 500. -/
theorem elo_bounds_violated :
    _estimate_performance_elo whiteTen (some 800) = 1500 ∧
    ¬ _estimate_performance_elo whiteTen (some 800) ≤ 800 + 400 ∧
    _estimate_performance_elo whiteTwenty (some 50) = 450 ∧
    ¬ (500 : ℤ) ≤ _estimate_performance_elo whiteTwenty (some 50) := by
  have h1 : _estimate_performance_elo whiteTen (some 800) = 1500 := by
    norm_num [_estimate_performance_elo, whiteTen]
  have h2 : _estimate_performance_elo whiteTwenty (some 50) = 450 := by
    have hlen : ¬ whiteTwenty.length < 20 := by simp [whiteTwenty]
    rw [_estimate_performance_elo, if_neg hlen, perfEloBody_whiteTwenty_cap]
  rw [h1, h2]
  norm_num

/-- Witness for C5: a one-move list and the twenty perfect moves against a
1000-rated opponent: all the amended bounds hold, including the cap. -/
theorem accuracy_and_elo_bounds_witness :
    0 ≤ compute_accuracy [perfectMove 0] ∧
    compute_accuracy [perfectMove 0] ≤ 100 ∧
    _estimate_performance_elo whiteTwenty (some 1000) ≤ 3000 ∧
    min 500 (1000 + 400) ≤ _estimate_performance_elo whiteTwenty (some 1000) ∧
    _estimate_performance_elo whiteTwenty (some 1000) ≤ 1000 + 400 := by
  obtain ⟨h1, h2, h3, h4, h5⟩ :=
    accuracy_and_elo_bounds [perfectMove 0] whiteTwenty (some 1000)
  exact ⟨h1, h2, h3, h4,
    h5 1000 rfl (by norm_num [whiteTwenty]) (by rw [acpl_whiteTwenty]; simp)⟩

/-- The claim's per-move CPL for accuracy, written from the spec's words:
the clamped mover-perspective difference `score_best − score_after`
(§4.C step 2); `0` when a scalar is undefined. -/
def claimCpl (m : MoveAnalysis) : ℤ :=
  match m.eval_best_cp, m.eval_after_cp with
  | some best, some after =>
      specDelta (if m.ply_index % 2 = 0 then .white else .black) best after
  | _, _ => 0

/-- The claim's per-move score:
`clamp(100 − 28.85·log₁₀(1 + CPL), 0, 100)`. -/
noncomputable def claimMoveScore (m : MoveAnalysis) : ℝ :=
  max 0 (min 100 (100 - 28.85 * Real.logb 10 (1 + (claimCpl m : ℝ))))

/-- The claim's accuracy, written from the claim's words: the arithmetic
mean of `claimMoveScore` over the non-book moves, rounded to two decimals;
100 when every move is a book move. -/
noncomputable def claimAccuracy (moves : List MoveAnalysis) : ℝ :=
  let nb := moves.filter (fun m => !m.is_book)
  if nb = [] then 100
  else round2 ((nb.map claimMoveScore).sum / nb.length)

/-- A White non-book move: the engine's best move would have kept +200 cp,
the played move keeps 0 cp, and the game eval was 0 before and 0 after. -/
def cMove : MoveAnalysis := ⟨0, some 0, some 200, some 0, .mistake, false, false, ""⟩

theorem round2_hundred : round2 (100 : ℝ) = 100 := by
  unfold round2
  rw [show (100 : ℝ) * 100 = 10000 by norm_num]
  rw [show ((10000 : ℝ)) = ((10000 : ℤ) : ℝ) by norm_num, round_intCast]
  norm_num

/-- The code rates `cMove` at 100: its CPL is `eval_before − eval_after = 0`. -/
theorem compute_accuracy_cMove : compute_accuracy [cMove] = 100 := by
  have hbook : cMove.is_book = false := rfl
  have hs : _cp_loss_to_score (_get_cp_loss cMove) = 100 := by
    simp [_get_cp_loss, cMove, _cp_loss_to_score]
  simp only [compute_accuracy]
  norm_num [List.filter, hbook, hs, round2_hundred]

/-- The claim's score for `cMove` is at most 43: its best/after CPL is
200, and `log₁₀ 201 ≥ 2`. -/
theorem claimMoveScore_cMove_le : claimMoveScore cMove ≤ 43 := by
  have hlog : (2 : ℝ) ≤ Real.logb 10 201 := by
    rw [Real.le_logb_iff_rpow_le (by norm_num) (by norm_num)]
    rw [show (2 : ℝ) = ((2 : ℕ) : ℝ) by norm_num, Real.rpow_natCast]
    norm_num
  have hcpl : claimCpl cMove = 200 := by
    simp [claimCpl, cMove, specDelta, povScore]
  unfold claimMoveScore
  rw [hcpl]
  have hX : (100 : ℝ) - 28.85 * Real.logb 10 (1 + ((200 : ℤ) : ℝ)) ≤ 43 := by
    push_cast
    nlinarith [hlog]
  exact max_le (by norm_num) (le_trans (min_le_right _ _) hX)

/-- The claim's accuracy at `[cMove]` stays strictly below 100. -/
theorem claimAccuracy_cMove_lt : claimAccuracy [cMove] < 100 := by
  have hval : claimAccuracy [cMove] = round2 (claimMoveScore cMove) := by
    have hfil : [cMove].filter (fun m => !m.is_book) = [cMove] := rfl
    simp only [claimAccuracy, hfil]
    norm_num
  rw [hval]
  have hround : round (100 * claimMoveScore cMove) ≤ 4300 := by
    rw [round_eq]
    have h2 : ⌊100 * claimMoveScore cMove + 1 / 2⌋ ≤ ⌊(4300 : ℝ) + 1 / 2⌋ :=
      Int.floor_mono (by nlinarith [claimMoveScore_cMove_le])
    have h3 : ⌊(4300 : ℝ) + 1 / 2⌋ = 4300 := by norm_num [Int.floor_eq_iff]
    omega
  unfold round2
  have : ((round (100 * claimMoveScore cMove) : ℤ) : ℝ) ≤ 4300 := by
    exact_mod_cast hround
  linarith

/-- C3 (counterexample): the accuracy computation does not use the §4.C
step-2 CPL.  For a White non-book move with `before = 0`, `best = 200`,
`after = 0`, the code's accuracy is 100 (it uses `before − after = 0`)
while the claim's formula (CPL `= best − after = 200`) stays below 100. -/
theorem accuracy_not_best_after_cpl :
    compute_accuracy [cMove] ≠ claimAccuracy [cMove] := by
  rw [compute_accuracy_cMove]
  intro hEq
  have hlt := claimAccuracy_cMove_lt
  rw [← hEq] at hlt
  exact lt_irrefl _ hlt

/-- The amended claim's per-move CPL: the clamped mover-perspective
difference `eval_before − eval_after` (the evaluations before and after
the move), `0` when either scalar is undefined. -/
def amendedCpl (m : MoveAnalysis) : ℤ :=
  match m.eval_before_cp, m.eval_after_cp with
  | some before, some after =>
      if m.ply_index % 2 = 0 then max 0 (before - after) else max 0 (after - before)
  | _, _ => 0

/-- The amended claim's per-move score:
`clamp(100 − 28.85·log₁₀(1 + CPL), 0, 100)` with the before/after CPL. -/
noncomputable def amendedMoveScore (m : MoveAnalysis) : ℝ :=
  max 0 (min 100 (100 - 28.85 * Real.logb 10 (1 + (amendedCpl m : ℝ))))

/-- The amended claim's accuracy: the arithmetic mean of the amended
scores over the non-book moves, rounded to two decimals; 100 for a
non-empty all-book list, 0 for an empty one. -/
noncomputable def amendedAccuracy (moves : List MoveAnalysis) : ℝ :=
  if moves = [] then 0
  else
    let nb := moves.filter (fun m => !m.is_book)
    if nb = [] then 100
    else round2 ((nb.map amendedMoveScore).sum / nb.length)

theorem get_cp_loss_eq_amendedCpl (m : MoveAnalysis) :
    _get_cp_loss m = amendedCpl m := by
  unfold _get_cp_loss amendedCpl
  cases m.eval_before_cp <;> cases m.eval_after_cp <;> simp
  split <;> simp

theorem amendedCpl_nonneg (m : MoveAnalysis) : 0 ≤ amendedCpl m := by
  unfold amendedCpl
  cases m.eval_before_cp <;> cases m.eval_after_cp <;> simp
  split <;> simp

theorem cp_loss_to_score_eq_amended (m : MoveAnalysis) :
    _cp_loss_to_score (_get_cp_loss m) = amendedMoveScore m := by
  rw [get_cp_loss_eq_amendedCpl]
  have hge := amendedCpl_nonneg m
  unfold _cp_loss_to_score amendedMoveScore
  rcases lt_or_eq_of_le hge with hlt | heq
  · rw [if_neg (not_le.mpr hlt)]
  · rw [← heq]
    norm_num [Real.logb_one]

/-- C3 (amended): the computed accuracy equals the arithmetic mean, over
the non-book moves, of `clamp(100 − 28.85·log₁₀(1+CPL), 0, 100)` rounded
to two decimals, where each move's CPL is the clamped mover-perspective
difference `eval_before − eval_after` (undefined scalars count as 0); a
non-empty all-book list yields 100 and an empty list yields 0. -/
theorem compute_accuracy_is_before_after_mean (moves : List MoveAnalysis) :
    compute_accuracy moves = amendedAccuracy moves := by
  unfold compute_accuracy amendedAccuracy
  by_cases hm : moves = []
  · simp [hm]
  · simp only [if_neg hm]
    by_cases hnb : moves.filter (fun m => !m.is_book) = []
    · simp [hnb]
    · simp only [if_neg hnb]
      rw [foldl_add_score, zero_add]
      have hfun : (fun m => _cp_loss_to_score (_get_cp_loss m)) = amendedMoveScore :=
        funext cp_loss_to_score_eq_amended
      rw [hfun]

/-- The id-independent content of a practice item: start ply, start
position, side to move, target lines, category. -/
def stripId (it : PracticeItem) :
    ℕ × String × String × List String × List String × PracticeCategory :=
  (it.source_ply_index, it.fen_start, it.side_to_move, it.target_line_uci,
    it.target_line_san, it.category)

/-- The practice items of one game in the store. -/
def gameItems (db : PracticeDB) (gameId : ℕ) : List PracticeItem :=
  db.items.filter (fun it => it.source_game_id = gameId)

theorem generateLoop_items_append (gameId : ℕ) (allMoves : List MoveAnalysis)
    (categories : List PracticeCategory) (offset_plies target_line_plies : ℕ)
    (fenTurn : String → Color) (pvOracle : String → List (List String))
    (sanPush : String → String → Option (String × String)) (now : ℚ)
    (ms : List MoveAnalysis) (items : List PracticeItem)
    (progs : List (ℕ × PracticeProgress)) (nid created : ℕ) :
    (generateLoop gameId allMoves categories offset_plies target_line_plies
        fenTurn pvOracle sanPush now ms items progs nid created).1 =
      items ++ (generateLoop gameId allMoves categories offset_plies
        target_line_plies fenTurn pvOracle sanPush now ms [] [] nid 0).1 := by
  induction ms generalizing items progs nid created with
  | nil => simp [generateLoop]
  | cons mv rest ih =>
    rw [generateLoop, generateLoop]
    cases practiceCandidate allMoves categories offset_plies target_line_plies
        fenTurn pvOracle sanPush mv with
    | none => exact ih items progs nid created
    | some cand =>
      obtain ⟨ply, fen, side, ucis, sans, cat⟩ := cand
      rw [ih (items ++ [_]) _ _ _, ih ([] ++ [_]) _ _ _]
      simp

theorem generateLoop_strip_id_independent (gameId : ℕ)
    (allMoves : List MoveAnalysis) (categories : List PracticeCategory)
    (offset_plies target_line_plies : ℕ) (fenTurn : String → Color)
    (pvOracle : String → List (List String))
    (sanPush : String → String → Option (String × String)) (now now' : ℚ)
    (ms : List MoveAnalysis) (nid nid' : ℕ) :
    ((generateLoop gameId allMoves categories offset_plies target_line_plies
        fenTurn pvOracle sanPush now ms [] [] nid 0).1).map stripId =
    ((generateLoop gameId allMoves categories offset_plies target_line_plies
        fenTurn pvOracle sanPush now' ms [] [] nid' 0).1).map stripId := by
  induction ms generalizing nid nid' with
  | nil => simp [generateLoop]
  | cons mv rest ih =>
    rw [generateLoop, generateLoop]
    cases practiceCandidate allMoves categories offset_plies target_line_plies
        fenTurn pvOracle sanPush mv with
    | none => exact ih nid nid'
    | some cand =>
      obtain ⟨ply, fen, side, ucis, sans, cat⟩ := cand
      conv_lhs => rw [generateLoop_items_append]
      conv_rhs => rw [generateLoop_items_append]
      simp only [List.nil_append, List.map_append]
      rw [ih (nid + 1) (nid' + 1)]
      rfl

theorem generateLoop_items_owned (gameId : ℕ) (allMoves : List MoveAnalysis)
    (categories : List PracticeCategory) (offset_plies target_line_plies : ℕ)
    (fenTurn : String → Color) (pvOracle : String → List (List String))
    (sanPush : String → String → Option (String × String)) (now : ℚ)
    (ms : List MoveAnalysis) (nid : ℕ) :
    ∀ it ∈ (generateLoop gameId allMoves categories offset_plies
        target_line_plies fenTurn pvOracle sanPush now ms [] [] nid 0).1,
      it.source_game_id = gameId := by
  induction ms generalizing nid with
  | nil => simp [generateLoop]
  | cons mv rest ih =>
    rw [generateLoop]
    cases practiceCandidate allMoves categories offset_plies target_line_plies
        fenTurn pvOracle sanPush mv with
    | none => exact ih nid
    | some cand =>
      obtain ⟨ply, fen, side, ucis, sans, cat⟩ := cand
      rw [generateLoop_items_append]
      intro it hit
      rcases List.mem_append.mp hit with h | h
      · simp at h
        subst h
        rfl
      · exact ih (nid + 1) it h

/-- After one generation run, this game's items in the store are exactly
the freshly generated ones. -/
theorem gameItems_after_generate (db : PracticeDB) (gameId : ℕ)
    (analysisMoves : List MoveAnalysis) (categories : List PracticeCategory)
    (offset_plies target_line_plies : ℕ) (fenTurn : String → Color)
    (pvOracle : String → List (List String))
    (sanPush : String → String → Option (String × String)) (now : ℚ) :
    gameItems (generate_practice_items db gameId analysisMoves categories
        offset_plies target_line_plies fenTurn pvOracle sanPush now).1 gameId =
      (generateLoop gameId analysisMoves categories offset_plies
        target_line_plies fenTurn pvOracle sanPush now analysisMoves [] []
        db.next_item_id 0).1 := by
  simp only [gameItems, generate_practice_items]
  rw [generateLoop_items_append]
  rw [List.filter_append]
  have h1 : (db.items.filter (fun it => !(it.source_game_id = gameId))).filter
      (fun it => it.source_game_id = gameId) = [] := by
    rw [List.filter_filter]
    apply List.filter_eq_nil_iff.mpr
    intro it _
    simp
  have h2 : ((generateLoop gameId analysisMoves categories offset_plies
      target_line_plies fenTurn pvOracle sanPush now analysisMoves [] []
      db.next_item_id 0).1).filter (fun it => it.source_game_id = gameId) =
      (generateLoop gameId analysisMoves categories offset_plies
        target_line_plies fenTurn pvOracle sanPush now analysisMoves [] []
        db.next_item_id 0).1 := by
    apply List.filter_eq_self.mpr
    intro it hit
    exact decide_eq_true (generateLoop_items_owned gameId analysisMoves
      categories offset_plies target_line_plies fenTurn pvOracle sanPush now
      analysisMoves db.next_item_id it hit)
  rw [h1, h2, List.nil_append]

/-- C8: generating practice items twice for the same game with identical
inputs (same analysis result, same engine PV responses, same offsets)
leaves the same list of items for that game as generating once — equal
start plies, start positions, sides to move, target UCI/SAN lines and
categories, differing only in item ids.  (The two runs may even happen at
different times `now ≠ now'`.) -/
theorem generate_practice_items_idempotent (db : PracticeDB) (gameId : ℕ)
    (analysisMoves : List MoveAnalysis) (categories : List PracticeCategory)
    (offset_plies target_line_plies : ℕ) (fenTurn : String → Color)
    (pvOracle : String → List (List String))
    (sanPush : String → String → Option (String × String)) (now now' : ℚ) :
    (gameItems (generate_practice_items
        (generate_practice_items db gameId analysisMoves categories
          offset_plies target_line_plies fenTurn pvOracle sanPush now).1
        gameId analysisMoves categories offset_plies target_line_plies
        fenTurn pvOracle sanPush now').1 gameId).map stripId =
    (gameItems (generate_practice_items db gameId analysisMoves categories
        offset_plies target_line_plies fenTurn pvOracle sanPush now).1
        gameId).map stripId := by
  rw [gameItems_after_generate, gameItems_after_generate]
  exact generateLoop_strip_id_independent gameId analysisMoves categories
    offset_plies target_line_plies fenTurn pvOracle sanPush now' now
    analysisMoves _ _

theorem criticalPvLoop_preserves_config (turn : Color) (depth : ℤ)
    (lines : List (List ℕ)) (e : ChessEngine) :
    ((criticalPvLoop turn depth lines e).2).config = e.config := by
  induction lines generalizing e with
  | nil => rfl
  | cons l rest ih =>
    rw [criticalPvLoop]
    split
    · exact ih e
    · simp only [ChessEngine.evaluate]
      cases ho : e.oracle e.calls (max 15 (depth - 2)) e.config.multipv with
      | error u => rfl
      | ok r =>
        simp only []
        cases hcp : r.score_cp with
        | none => exact ih _
        | some s =>
          simp only []
          rcases hrec : criticalPvLoop turn depth rest
            { e with calls := e.calls + 1 } with ⟨res, e2⟩
          have hcfg := ih { e with calls := e.calls + 1 }
          rw [hrec] at hcfg
          cases res <;> simpa using hcfg

/-- C9: `_is_critical_position` leaves the engine's multi-PV setting as it
found it on every exit path — whether it returns true, returns false, or
an inner engine evaluation raises (the temporary raise to 5 is always
reverted). -/
theorem is_critical_position_restores_multipv (d : ℤ) (turn : Color)
    (e : ChessEngine) :
    ((_is_critical_position d turn e).2).config.multipv = e.config.multipv := by
  unfold _is_critical_position
  simp only [ChessEngine.evaluate, ChessEngine.setMultipv]
  cases ho : (ChessEngine.mk ⟨5⟩ e.oracle e.calls).oracle
      (ChessEngine.mk ⟨5⟩ e.oracle e.calls).calls d
      (ChessEngine.mk ⟨5⟩ e.oracle e.calls).config.multipv with
  | error u => rfl
  | ok multi_eval =>
    simp only []
    split
    · rfl
    · rcases hrec : criticalPvLoop turn d (multi_eval.pv_lines.take 5)
          ⟨⟨e.config.multipv⟩, e.oracle, e.calls + 1⟩ with ⟨res, e4⟩
      have hcfg := criticalPvLoop_preserves_config turn d
        (multi_eval.pv_lines.take 5) ⟨⟨e.config.multipv⟩, e.oracle, e.calls + 1⟩
      rw [hrec] at hcfg
      cases res with
      | error u => rfl
      | ok evaluations =>
        simp only []
        have h4 : e4.config.multipv = e.config.multipv := by rw [hcfg]
        split
        · exact h4
        · split
          · exact h4
          · split
            · exact h4
            · split
              · exact h4
              · split
                · exact h4
                · exact h4
